import Mathlib

/-!
Shallow embedding of the core of `ragsst.py` (class `RAGTools`) together with
proofs about its retrieval, ingestion, chat-window and LLM-client logic.

Modelling conventions:
* Python floats are modelled as exact rationals (`ℚ`); `round(x, 2)` is modelled
  by `pyround2`, a round-half-to-even at two decimals, matching Python `round`.
* The vector store's query answer (`collection.query(...)`) is the
  `QueryResult` record of parallel lists; the source reads the inner `[0]`
  lists of each field, which are the lists stored here.
* HTTP calls are modelled by an explicit `respond` oracle returning
  `Except Unit _`; `Except.error` stands for a raised/re-raised exception
  (transport or decode failure in the `try` block, or an `AttributeError`).
* Python dicts are association lists read through `dict_get`
  (Python `dict.get(key, default)`).
-/

/-- A query answer from the vector store: the inner parallel lists
`ids[0]`, `documents[0]`, `distances[0]`, `metadatas[0]` read by the source.
A metadata entry is the pair (source, part) stored at ingestion. -/
structure QueryResult where
  ids : List String
  documents : List String
  distances : List ℚ
  metadatas : List (String × Nat)

/-- Round-half-to-even to an integer, the rounding mode of Python `round`. -/
def round_half_even (q : ℚ) : ℤ :=
  let f : ℤ := ⌊q⌋
  if q - f < 1/2 then f
  else if 1/2 < q - f then f + 1
  else if f % 2 = 0 then f else f + 1

/-- Python `round(q, 2)`. -/
def pyround2 (q : ℚ) : ℚ := (round_half_even (100 * q) : ℚ) / 100

/-- `RAGTools.get_relevant_text` (ragsst.py:168-179): join `documents[0]`,
after dropping, when `sim_th` is given, the rows whose unrounded similarity
`1 - distance` is below the threshold. -/
def get_relevant_text (query_result : QueryResult) (sim_th : Option ℚ) : String :=
  let docs := query_result.documents
  match sim_th with
  | some th =>
      let similarities := query_result.distances.map (fun d => 1 - d)
      let relevant_docs :=
        ((docs.zip similarities).filter (fun ds => decide (th ≤ ds.2))).map Prod.fst
      String.join relevant_docs
  | none => String.join docs

/-- Python `str({'source': s, 'part': p})`, the metadata line of a block of
`retrieve_content_w_meta_info`. -/
def meta_info_str (m : String × Nat) : String :=
  "\x7b\x27source\x27: \x27" ++ m.1 ++ "\x27, \x27part\x27: " ++ Nat.repr m.2 ++ "\x7d"

/-- One selected block of `RAGTools.retrieve_content_w_meta_info`
(ragsst.py:162-164): chunk text, relevance line (similarity rounded to two
decimals) and metadata, joined by newlines. -/
def rcwm_block (query_result : QueryResult) (i : Nat) : String :=
  let sim := pyround2 (1 - query_result.distances.getD i 0)
  String.intercalate ("\n")
    [query_result.documents.getD i (""), "Relevance: " ++ toString sim,
     meta_info_str (query_result.metadatas.getD i (("", 0)))]

/-- Row-selection test of `RAGTools.retrieve_content_w_meta_info`
(ragsst.py:156-160): a row is kept unless a threshold is given and the rounded
similarity falls below it (`continue`). -/
def rcwm_keep (query_result : QueryResult) (sim_th : Option ℚ) (i : Nat) : Bool :=
  match sim_th with
  | some th => !(decide (pyround2 (1 - query_result.distances.getD i 0) < th))
  | none => true

/-- `RAGTools.retrieve_content_w_meta_info` (ragsst.py:146-166): iterate the
row indices of the query answer, keep the rows passing `rcwm_keep`, format
each kept row with `rcwm_block` and join with the separator line. -/
def retrieve_content_w_meta_info (query_result : QueryResult) (sim_th : Option ℚ) : String :=
  let docs_selection :=
    ((List.range query_result.ids.length).filter (rcwm_keep query_result sim_th)).map
      (rcwm_block query_result)
  String.intercalate ("\n-----------------\n\n") docs_selection

/-- `RAGTools.get_context_prompt` (ragsst.py:183-193). -/
def get_context_prompt (question : String) (context : String) : String :=
  "Use the following context to answer the question at the end. " ++
    "Keep the answer as concise as possible.\n" ++
    "Context:\n" ++ context ++ "\nQuestion:\n" ++ question

/-- The fixed sentinel answer of `RAGTools.rag_query` (ragsst.py:203). -/
def not_found_sentinel : String :=
  "Relevant passage not found. Try lowering the relevance threshold."

/-- `RAGTools.rag_query` (ragsst.py:195-206). `query_result` is the vector
store's answer for `user_msg`; `llm` abstracts `self.llm_generate` on the
success path (prompt to returned answer). -/
def rag_query (query_result : QueryResult) (user_msg : String) (sim_th : ℚ)
    (llm : String → String) : String :=
  let relevant_text := get_relevant_text query_result (some sim_th)
  if relevant_text = "" then not_found_sentinel
  else llm (get_context_prompt user_msg relevant_text)

/-- A record stored in the vector store collection by `make_collection`:
chunk text, id, and the metadata pair source/part (ragsst.py:134-139). -/
structure StoredRecord where
  document : String
  id : String
  source : String
  part : Nat
deriving DecidableEq

/-- The record id built at ragsst.py:137: Python
`f"id{file_name[:-4]}.{i}"`, with `file_name[:-4]` dropping the 4-character
extension and `i` the 1-based chunk index. -/
def chunk_id (file_name : String) (i : Nat) : String :=
  "id" ++ file_name.dropRight 4 ++ "." ++ Nat.repr i

/-- The records stored for one file by the inner loop of
`RAGTools.make_collection` (ragsst.py:134-139): chunks enumerated from 1. -/
def chunk_records (file_name : String) (chunks : List String) : List StoredRecord :=
  (List.enumFrom 1 chunks).map (fun ic =>
    { document := ic.2, id := chunk_id file_name ic.1,
      source := file_name, part := ic.1 })

/-- `RAGTools.make_collection` (ragsst.py:97-139). `collection` is the current
content of the vector store collection; `files` pairs each enumerated file's
basename with the chunk list `split_text(read_file(f))` produced by the
reading/splitting collaborators. The `sources` set is computed once from the
existing metadata; files whose basename is in it are skipped entirely when
`skip_included_files` is set, all remaining chunks are added. -/
def make_collection (collection : List StoredRecord) (files : List (String × List String))
    (skip_included_files : Bool) : List StoredRecord :=
  let sources := collection.map StoredRecord.source
  collection ++ files.flatMap (fun fc =>
    if skip_included_files ∧ fc.1 ∈ sources then [] else chunk_records fc.1 fc.2)

/-- A Python value reachable by the conversation-window code of `llm_chat`:
either a str (the default of `response_dic.get('message', '')`) or a dict of
string fields (a `{role, content}` message). -/
inductive PyVal where
  | str (s : String)
  | dict (fields : List (String × String))
deriving DecidableEq

/-- Python `dict.get(key, default)` over an association list. -/
def dict_get (fields : List (String × α)) (key : String) (dflt : α) : α :=
  match fields.find? (fun p => p.1 == key) with
  | some p => p.2
  | none => dflt

/-- `self.max_conversation_length` (ragsst.py:31). -/
def max_conversation_length : Nat := 10

/-- An append to `collections.deque(maxlen := n)` (ragsst.py:32): append at the
tail, then evict from the head whatever exceeds `maxlen`. -/
def deque_append (maxlen : Nat) (dq : List α) (x : α) : List α :=
  let dq2 := dq ++ [x]
  dq2.drop (dq2.length - maxlen)

/-- The user turn dict appended by `llm_chat` (ragsst.py:74). -/
def user_turn (user_message : String) : PyVal :=
  PyVal.dict [("role", "user"), ("content", user_message)]

/-- `RAGTools.llm_chat` (ragsst.py:69-93). The user turn is appended to the
conversation; `respond` is the HTTP oracle, applied to the full window
(`messages: list(self.conversation)`), returning the decoded response dict or
an error (transport/decode exception). The `message` field (default: the str
`''`) is appended to the window; reading `.get('content', '')` succeeds on a
dict and raises `AttributeError` on a str. Returns the answer-or-exception
together with the final conversation window. -/
def llm_chat (conversation : List PyVal) (user_message : String)
    (respond : List PyVal → Except Unit (List (String × PyVal))) :
    Except Unit String × List PyVal :=
  let conv1 :=
    deque_append max_conversation_length conversation (user_turn user_message)
  match respond conv1 with
  | Except.error e => (Except.error e, conv1)
  | Except.ok response_dic =>
    let response := dict_get response_dic ("message") (PyVal.str (""))
    let conv2 := deque_append max_conversation_length conv1 response
    match response with
    | PyVal.dict fields => (Except.ok (dict_get fields ("content") ("")), conv2)
    | PyVal.str _ => (Except.error (), conv2)

/-- `RAGTools.llm_generate` (ragsst.py:49-67). `respond` is the decoded JSON
body of the HTTP answer, or an error for a raised transport/decode exception
(logged and re-raised). On success the `response` field is read with default
`''`. -/
def llm_generate (respond : Except Unit (List (String × String))) : Except Unit String :=
  match respond with
  | Except.error e => Except.error e
  | Except.ok response_dic => Except.ok (dict_get response_dic ("response") (""))

/-- Decimal value of a digit-character list, folded from the left onto `a`;
used to invert `Nat.repr`. -/
def digits_val (l : List Char) (a : Nat) : Nat :=
  l.foldl (fun b c => 10 * b + (c.toNat - 48)) a

/-! ## Theorems -/

/-- Claim C1: for every query answer and threshold, when `get_relevant_text`
returns the empty string, `rag_query` returns exactly the fixed sentinel
string and the LLM is never invoked (the result does not depend on the LLM
at all); when the retrieved text is non-empty, `rag_query` returns the LLM's
answer for the context prompt, never the sentinel substitute. -/
theorem rag_query_sentinel_iff_empty (query_result : QueryResult) (user_msg : String)
    (sim_th : ℚ) (llm : String → String) :
    (get_relevant_text query_result (some sim_th) = "" →
      rag_query query_result user_msg sim_th llm = not_found_sentinel ∧
      ∀ llm2 : String → String,
        rag_query query_result user_msg sim_th llm2 = not_found_sentinel) ∧
    (get_relevant_text query_result (some sim_th) ≠ "" →
      rag_query query_result user_msg sim_th llm =
        llm (get_context_prompt user_msg (get_relevant_text query_result (some sim_th)))) := by
  refine ⟨fun h => ⟨?_, fun llm2 => ?_⟩, fun h => ?_⟩ <;> simp [rag_query, h]

/-- Claim C1, witness: a one-row query answer with similarity 1/2 against
threshold 9/10 retrieves nothing, and `rag_query` answers with the sentinel. -/
theorem rag_query_sentinel_iff_empty_witness :
    rag_query ⟨[("id1")], [("chunk")], [1/2], [(("doc.txt"), 1)]⟩ ("q") (9/10)
        (fun _ => "answer") = not_found_sentinel :=
  ((rag_query_sentinel_iff_empty _ _ _ _).1 (by norm_num [get_relevant_text]; rfl)).1

/-- Claim C2: for every query answer and threshold, `get_relevant_text`
concatenates exactly the texts of a selection of rows each of whose unrounded
similarity `1 - distance` reaches the threshold, and
`retrieve_content_w_meta_info` formats exactly a selection of row indices each
of whose rounded similarity reaches the threshold; both selections are
sublists (rows are only dropped, the store's nearest-first order is kept). -/
theorem retrieval_respects_threshold (query_result : QueryResult) (th : ℚ) :
    (∃ sel : List (String × ℚ),
      List.Sublist sel
        (query_result.documents.zip (query_result.distances.map (fun d => 1 - d))) ∧
      (∀ ds ∈ sel, th ≤ ds.2) ∧
      get_relevant_text query_result (some th) = String.join (sel.map Prod.fst)) ∧
    (∃ rows : List Nat,
      List.Sublist rows (List.range query_result.ids.length) ∧
      (∀ i ∈ rows, th ≤ pyround2 (1 - query_result.distances.getD i 0)) ∧
      retrieve_content_w_meta_info query_result (some th) =
        String.intercalate ("\n-----------------\n\n")
          (rows.map (rcwm_block query_result))) := by
  constructor
  · refine ⟨_, List.filter_sublist _, fun ds hds => ?_, rfl⟩
    have := (List.mem_filter.mp hds).2
    exact of_decide_eq_true this
  · refine ⟨_, List.filter_sublist _, fun i hi => ?_, rfl⟩
    have := (List.mem_filter.mp hi).2
    simp only [rcwm_keep, Bool.not_eq_true', decide_eq_false_iff_not, not_lt] at this
    exact this

/-- Claim C10: at the concrete query answer with one row at distance 0.604
and threshold 0.4, `get_relevant_text` drops the row (unrounded similarity
0.396 < 0.4 gives the empty string) while `retrieve_content_w_meta_info`
keeps it (rounded similarity `round(0.396, 2) = 0.4` reaches the threshold and
the output is non-empty): the two retrieval operations do not select the same
rows on every input. -/
theorem rounded_vs_unrounded_selection_differs :
    get_relevant_text ⟨[("id1")], [("chunk text")], [604/1000], [(("doc.txt"), 1)]⟩
        (some (4/10)) = "" ∧
    ((QueryResult.documents ⟨[("id1")], [("chunk text")], [604/1000], [(("doc.txt"), 1)]⟩).zip
        ((QueryResult.distances ⟨[("id1")], [("chunk text")], [604/1000], [(("doc.txt"), 1)]⟩).map
          (fun d => 1 - d))).filter (fun ds => decide ((4:ℚ)/10 ≤ ds.2)) = [] ∧
    (List.range
        (QueryResult.ids ⟨[("id1")], [("chunk text")], [604/1000], [(("doc.txt"), 1)]⟩).length).filter
        (rcwm_keep ⟨[("id1")], [("chunk text")], [604/1000], [(("doc.txt"), 1)]⟩ (some (4/10)))
      = [0] ∧
    retrieve_content_w_meta_info ⟨[("id1")], [("chunk text")], [604/1000], [(("doc.txt"), 1)]⟩
        (some (4/10)) =
      rcwm_block ⟨[("id1")], [("chunk text")], [604/1000], [(("doc.txt"), 1)]⟩ 0 := by
  have hround : pyround2 (1 - 604/1000) = 4/10 := by
    norm_num [pyround2, round_half_even]
  have hkeep : rcwm_keep ⟨[("id1")], [("chunk text")], [604/1000], [(("doc.txt"), 1)]⟩
      (some (4/10)) 0 = true := by
    simp only [rcwm_keep, List.getD_cons_zero, hround, Bool.not_eq_true',
      decide_eq_false_iff_not, not_lt, le_refl]
  refine ⟨by norm_num [get_relevant_text]; rfl, by norm_num, ?_, ?_⟩
  · simp [hkeep, List.range_succ]
  · simp [retrieve_content_w_meta_info, List.range_succ, hkeep, String.intercalate,
      String.intercalate.go]

/-- Helper: the records of one file, start index generalized. -/
theorem chunk_records_from (file_name : String) (chunks : List String) :
    ∀ n : Nat,
      ((List.enumFrom n chunks).map (fun ic =>
          ({ document := ic.2, id := chunk_id file_name ic.1,
             source := file_name, part := ic.1 } : StoredRecord))).map StoredRecord.id =
        (List.range' n chunks.length).map (chunk_id file_name) ∧
      ((List.enumFrom n chunks).map (fun ic =>
          ({ document := ic.2, id := chunk_id file_name ic.1,
             source := file_name, part := ic.1 } : StoredRecord))).map StoredRecord.part =
        List.range' n chunks.length ∧
      ((List.enumFrom n chunks).map (fun ic =>
          ({ document := ic.2, id := chunk_id file_name ic.1,
             source := file_name, part := ic.1 } : StoredRecord))).map StoredRecord.source =
        List.replicate chunks.length file_name := by
  induction chunks with
  | nil => intro n; simp
  | cons c cs ih =>
    intro n
    obtain ⟨h1, h2, h3⟩ := ih (n + 1)
    simp [List.enumFrom, List.range', List.replicate, h1, h2, h3]

/-- Claim C3: a file whose text splits into k chunks and which is not skipped
contributes exactly k records, with ids `"id" ++ file_name[:-4] ++ "." ++ i`
for the 1-based indices i = 1..k and metadata source = file name,
part = i, appended to the collection in chunk order. (For the enumerated
extensions `.txt`/`.pdf`, `file_name[:-4]` is the stem of the file name.) -/
theorem make_collection_stores_chunk_records (collection : List StoredRecord)
    (file_name : String) (chunks : List String)
    (h : file_name ∉ collection.map StoredRecord.source) :
    make_collection collection [(file_name, chunks)] true =
      collection ++ chunk_records file_name chunks ∧
    (chunk_records file_name chunks).length = chunks.length ∧
    (chunk_records file_name chunks).map StoredRecord.id =
      (List.range' 1 chunks.length).map (chunk_id file_name) ∧
    (chunk_records file_name chunks).map StoredRecord.part =
      List.range' 1 chunks.length ∧
    (chunk_records file_name chunks).map StoredRecord.source =
      List.replicate chunks.length file_name := by
  obtain ⟨h1, h2, h3⟩ := chunk_records_from file_name chunks 1
  refine ⟨?_, ?_, h1, h2, h3⟩
  · simp only [make_collection, List.flatMap_cons, List.flatMap_nil, List.append_nil]
    rw [if_neg (fun hc => h hc.2)]
  · simp [chunk_records]

/-- Claim C3, witness: ingesting `doc.txt` split into 3 chunks into an empty
collection stores exactly the ids `iddoc.1`, `iddoc.2`, `iddoc.3` with
parts 1, 2, 3. -/
theorem make_collection_stores_chunk_records_witness :
    make_collection [] [(("doc.txt"), [("c1"), ("c2"), ("c3")])] true =
      [⟨"c1", "iddoc.1", "doc.txt", 1⟩, ⟨"c2", "iddoc.2", "doc.txt", 2⟩,
       ⟨"c3", "iddoc.3", "doc.txt", 3⟩] :=
  ((make_collection_stores_chunk_records [] ("doc.txt") [("c1"), ("c2"), ("c3")]
      (by simp)).1).trans (by decide)

/-- Claim C4: with `skip_included_files` set, every enumerated file whose
basename occurs as a `source` value of the existing metadata is skipped
entirely; if all enumerated files are already indexed, `make_collection`
leaves the collection unchanged (same records, hence same size and ids). -/
theorem make_collection_skip_idempotent (collection : List StoredRecord)
    (files : List (String × List String))
    (h : ∀ fc ∈ files, fc.1 ∈ collection.map StoredRecord.source) :
    make_collection collection files true = collection ∧
    (make_collection collection files true).length = collection.length ∧
    (make_collection collection files true).map StoredRecord.id =
      collection.map StoredRecord.id := by
  have hmain : make_collection collection files true = collection := by
    unfold make_collection
    have : files.flatMap (fun fc =>
        if True ∧ fc.1 ∈ collection.map StoredRecord.source then []
        else chunk_records fc.1 fc.2) = ([] : List StoredRecord) := by
      rw [List.flatMap_eq_nil_iff]
      intro fc hfc
      simp [h fc hfc]
    simp only [Bool.true_eq] at this ⊢
    simp only [true_and] at this ⊢
    rw [this, List.append_nil]
  exact ⟨hmain, by rw [hmain], by rw [hmain]⟩

/-- Claim C4, witness: re-ingesting `doc.txt` over a collection already
holding it inserts nothing. -/
theorem make_collection_skip_idempotent_witness :
    make_collection [⟨"c1", "iddoc.1", "doc.txt", 1⟩] [(("doc.txt"), [("c1")])] true =
      [⟨"c1", "iddoc.1", "doc.txt", 1⟩] :=
  (make_collection_skip_idempotent [⟨"c1", "iddoc.1", "doc.txt", 1⟩]
    [(("doc.txt"), [("c1")])] (by simp)).1

/-- Helper: a deque append never exceeds the capacity. -/
theorem deque_append_length_le (maxlen : Nat) (dq : List α) (x : α) :
    (deque_append maxlen dq x).length ≤ maxlen ∨
      (deque_append maxlen dq x).length = dq.length + 1 := by
  simp only [deque_append, List.length_drop, List.length_append, List.length_cons,
    List.length_nil]
  omega

/-- Helper: folding deque appends over a short-enough start is append + drop. -/
theorem foldl_deque_append (maxlen : Nat) :
    ∀ (turns dq : List α), dq.length ≤ maxlen →
      turns.foldl (deque_append maxlen) dq =
        (dq ++ turns).drop (dq.length + turns.length - maxlen) := by
  intro turns
  induction turns with
  | nil =>
    intro dq hdq
    simp only [List.foldl_nil, List.append_nil, List.length_nil]
    rw [(by omega : dq.length + 0 - maxlen = 0), List.drop_zero]
  | cons t ts ih =>
    intro dq hdq
    have hlen : (deque_append maxlen dq t).length = dq.length + 1 - (dq.length + 1 - maxlen) := by
      simp [deque_append]
    have hle : (deque_append maxlen dq t).length ≤ maxlen := by omega
    rw [List.foldl_cons, ih (deque_append maxlen dq t) hle, hlen]
    have hdrop : deque_append maxlen dq t = (dq ++ [t]).drop (dq.length + 1 - maxlen) := by
      simp [deque_append]
    rw [hdrop]
    rw [← @List.drop_append_of_le_length _ (dq ++ [t]) ts (dq.length + 1 - maxlen) (by simp)]
    rw [List.drop_drop]
    have harr : dq ++ [t] ++ ts = dq ++ t :: ts := by simp
    rw [harr]
    congr 1
    simp only [List.length_cons]
    omega

/-- Helper: the length bound of the conversation window under repeated
appends. -/
theorem foldl_deque_append_length (maxlen : Nat) (turns : List α) (dq : List α)
    (hdq : dq.length ≤ maxlen) :
    (turns.foldl (deque_append maxlen) dq).length ≤ maxlen := by
  rw [foldl_deque_append maxlen turns dq hdq]
  simp only [List.length_drop, List.length_append]
  omega

/-- Claim C5: the conversation window never exceeds its capacity
`max_conversation_length = 10` after any sequence of appends starting from the
empty deque, and a sequence of 12 appended turns leaves exactly the last 10
turns in their original relative order (the 2 oldest are evicted, FIFO). -/
theorem conversation_window_fifo (turns : List PyVal) (h : turns.length = 12) :
    (∀ turns2 : List PyVal,
      (turns2.foldl (deque_append max_conversation_length) []).length ≤
        max_conversation_length) ∧
    turns.foldl (deque_append max_conversation_length) [] = turns.drop 2 := by
  constructor
  · intro turns2
    exact foldl_deque_append_length _ _ _ (by simp)
  · rw [foldl_deque_append _ _ _ (by simp)]
    simp [h, max_conversation_length]

/-- Claim C5, witness: 12 concrete turns leave turns 3..12. -/
theorem conversation_window_fifo_witness :
    ([PyVal.str ("t1"), PyVal.str ("t2"), PyVal.str ("t3"), PyVal.str ("t4"),
      PyVal.str ("t5"), PyVal.str ("t6"), PyVal.str ("t7"), PyVal.str ("t8"),
      PyVal.str ("t9"), PyVal.str ("t10"), PyVal.str ("t11"),
      PyVal.str ("t12")].foldl (deque_append max_conversation_length) []) =
      [PyVal.str ("t3"), PyVal.str ("t4"), PyVal.str ("t5"), PyVal.str ("t6"),
       PyVal.str ("t7"), PyVal.str ("t8"), PyVal.str ("t9"), PyVal.str ("t10"),
       PyVal.str ("t11"), PyVal.str ("t12")] :=
  ((conversation_window_fifo
      [PyVal.str ("t1"), PyVal.str ("t2"), PyVal.str ("t3"), PyVal.str ("t4"),
       PyVal.str ("t5"), PyVal.str ("t6"), PyVal.str ("t7"), PyVal.str ("t8"),
       PyVal.str ("t9"), PyVal.str ("t10"), PyVal.str ("t11"),
       PyVal.str ("t12")] rfl).2).trans rfl

/-- Claim C7: `llm_generate` on a successfully decoded response body returns
the empty string (raising nothing) when the `response` field is absent, and
returns exactly the field's value when it is present (first binding). -/
theorem llm_generate_response_field_policy (response_dic : List (String × String)) :
    (response_dic.find? (fun p => p.1 == "response") = none →
      llm_generate (Except.ok response_dic) = Except.ok ("")) ∧
    (∀ kv, response_dic.find? (fun p => p.1 == "response") = some kv →
      llm_generate (Except.ok response_dic) = Except.ok kv.2) := by
  constructor
  · intro h
    simp [llm_generate, dict_get, h]
  · intro kv h
    simp [llm_generate, dict_get, h]

/-- Claim C7, witness: a body without the field yields `""`, a body carrying
`response: hello` yields `hello`. -/
theorem llm_generate_response_field_policy_witness :
    llm_generate (Except.ok [(("other"), ("x"))]) = Except.ok ("") ∧
    llm_generate (Except.ok [(("response"), ("hello"))]) = Except.ok ("hello") :=
  ⟨(llm_generate_response_field_policy _).1 rfl,
   (llm_generate_response_field_policy _).2 (("response"), ("hello")) rfl⟩

/-- Claim C6, counterexample: when the decoded response lacks the `message`
field, `llm_chat` does not return the empty string: the str default `''` is
appended to the window and reading `.get('content', '')` on it raises an
`AttributeError` (modelled as `Except.error`), which the handler re-raises. -/
theorem llm_chat_missing_message_raises :
    llm_chat [] ("hi") (fun _ => Except.ok []) =
      (Except.error (), [user_turn ("hi"), PyVal.str ("")]) := rfl

/-- Claim C6 (amended): `llm_chat` appends the user turn to the conversation
window, sends the entire window as the message history (the oracle is applied
to the post-append window), appends the response's `message` object to the
window and returns its `content` value — the empty string when `content` is
absent — provided the `message` field is present (a dict). When `message`
itself is absent, the str default is appended instead and an exception is
raised (see the counterexample). -/
theorem llm_chat_message_success (conversation : List PyVal) (user_message : String)
    (respond : List PyVal → Except Unit (List (String × PyVal)))
    (response_dic : List (String × PyVal)) (fields : List (String × String))
    (hresp : respond (deque_append max_conversation_length conversation
        (user_turn user_message)) = Except.ok response_dic)
    (hmsg : dict_get response_dic ("message") (PyVal.str ("")) = PyVal.dict fields) :
    llm_chat conversation user_message respond =
      (Except.ok (dict_get fields ("content") ("")),
       deque_append max_conversation_length
         (deque_append max_conversation_length conversation (user_turn user_message))
         (PyVal.dict fields)) := by
  simp only [llm_chat, hresp, hmsg]

/-- Claim C6, witness: a response carrying `message = {role: assistant,
content: hello}` returns `hello` and leaves the user turn plus the message
object in the window. -/
theorem llm_chat_message_success_witness :
    llm_chat [] ("hi")
        (fun _ => Except.ok
          [(("message"),
            PyVal.dict [(("role"), ("assistant")), (("content"), ("hello"))])]) =
      (Except.ok ("hello"),
       [user_turn ("hi"),
        PyVal.dict [(("role"), ("assistant")), (("content"), ("hello"))]]) :=
  (llm_chat_message_success [] ("hi")
      (fun _ => Except.ok
        [(("message"),
          PyVal.dict [(("role"), ("assistant")), (("content"), ("hello"))])])
      [(("message"),
        PyVal.dict [(("role"), ("assistant")), (("content"), ("hello"))])]
      [(("role"), ("assistant")), (("content"), ("hello"))] rfl rfl).trans rfl

/-- Claim C9: `llm_chat` appends the user turn before issuing the request, so
when the request or decode fails (the oracle raises), the re-raised error
leaves the window already holding the appended user turn as its most recent
entry: conversation state is mutated even on error. -/
theorem llm_chat_error_keeps_user_turn (conversation : List PyVal) (user_message : String)
    (respond : List PyVal → Except Unit (List (String × PyVal)))
    (hresp : respond (deque_append max_conversation_length conversation
        (user_turn user_message)) = Except.error ()) :
    llm_chat conversation user_message respond =
      (Except.error (),
       deque_append max_conversation_length conversation (user_turn user_message)) ∧
    (deque_append max_conversation_length conversation
        (user_turn user_message)).getLast? = some (user_turn user_message) := by
  constructor
  · simp only [llm_chat, hresp]
  · have hdrop : deque_append max_conversation_length conversation (user_turn user_message)
        = (conversation.drop
            (conversation.length + 1 - max_conversation_length)) ++ [user_turn user_message] := by
      simp only [deque_append, List.length_append, List.length_cons, List.length_nil]
      rw [List.drop_append_of_le_length (by simp [max_conversation_length])]
    rw [hdrop, List.getLast?_concat]

/-- Claim C9, witness: a failing transport at an empty window still records
the user turn. -/
theorem llm_chat_error_keeps_user_turn_witness :
    llm_chat [] ("hi") (fun _ => Except.error ()) =
      (Except.error (), [user_turn ("hi")]) ∧
    ([user_turn ("hi")] : List PyVal).getLast? = some (user_turn ("hi")) := by
  have h := llm_chat_error_keeps_user_turn [] ("hi") (fun _ => Except.error ()) rfl
  exact h

/-- Helper: decimal digit characters decode back to their value. -/
theorem digitChar_toNat_sub (d : Nat) (h : d < 10) :
    (Nat.digitChar d).toNat - 48 = d := by
  interval_cases d <;> rfl

/-- Helper: decimal digit characters are digits. -/
theorem digitChar_isDigit (d : Nat) (h : d < 10) :
    (Nat.digitChar d).isDigit = true := by
  interval_cases d <;> rfl

/-- Helper: one step of the decimal-value fold. -/
theorem digits_val_cons (c : Char) (l : List Char) (a : Nat) :
    digits_val (c :: l) a = digits_val l (10 * a + (c.toNat - 48)) := rfl

/-- Helper: the decimal-value fold inverts `Nat.toDigitsCore` at base 10. -/
theorem toDigitsCore_digits_val :
    ∀ (f n : Nat) (acc : List Char) (a : Nat), n < f →
      ∃ k : Nat, 0 < k ∧ n < 10 ^ k ∧
        digits_val (Nat.toDigitsCore 10 f n acc) a = digits_val acc (a * 10 ^ k + n) := by
  intro f
  induction f with
  | zero => intro n acc a h; omega
  | succ f ih =>
    intro n acc a h
    by_cases hdiv : n / 10 = 0
    · have hn : n < 10 := by omega
      have hmod : n % 10 = n := Nat.mod_eq_of_lt hn
      refine ⟨1, one_pos, by omega, ?_⟩
      simp only [Nat.toDigitsCore, hdiv, if_pos]
      rw [hmod, digits_val_cons, digitChar_toNat_sub n hn, pow_one, Nat.mul_comm]
    · have hn0 : 0 < n := by omega
      have hlt : n / 10 < f := by omega
      obtain ⟨k, hk, hbound, heq⟩ := ih (n / 10) (Nat.digitChar (n % 10) :: acc) a hlt
      have hpow : 10 ^ (k + 1) = 10 * 10 ^ k := by rw [pow_succ]; ring
      refine ⟨k + 1, by omega, by omega, ?_⟩
      simp only [Nat.toDigitsCore]
      rw [if_neg hdiv, heq, digits_val_cons,
        digitChar_toNat_sub (n % 10) (Nat.mod_lt _ (by norm_num))]
      congr 1
      have hmul : a * 10 ^ (k + 1) = 10 * (a * 10 ^ k) := by rw [hpow]; ring
      omega

/-- Helper: folding the decimal value over `Nat.repr` recovers the number. -/
theorem nat_repr_digits_val (n : Nat) : digits_val (Nat.repr n).data 0 = n := by
  have h : (Nat.repr n).data = Nat.toDigitsCore 10 (n + 1) n [] := rfl
  rw [h]
  obtain ⟨k, -, -, heq⟩ := toDigitsCore_digits_val (n + 1) n [] 0 (by omega)
  rw [heq]
  simp [digits_val]

/-- Helper: decimal rendering of naturals is injective. -/
theorem nat_repr_injective (m n : Nat) (h : Nat.repr m = Nat.repr n) : m = n := by
  have h2 := congrArg (fun s => digits_val s.data 0) h
  simpa [nat_repr_digits_val] using h2

/-- Helper: `Nat.toDigitsCore` at base 10 only prepends digit characters. -/
theorem toDigitsCore_isDigit :
    ∀ (f n : Nat) (acc : List Char), (∀ c ∈ acc, c.isDigit = true) →
      ∀ c ∈ Nat.toDigitsCore 10 f n acc, c.isDigit = true := by
  intro f
  induction f with
  | zero => intro n acc hacc; simpa [Nat.toDigitsCore] using hacc
  | succ f ih =>
    intro n acc hacc
    have hd : (Nat.digitChar (n % 10)).isDigit = true :=
      digitChar_isDigit _ (Nat.mod_lt _ (by norm_num))
    have hcons : ∀ c ∈ Nat.digitChar (n % 10) :: acc, c.isDigit = true := by
      intro c hc
      rcases List.mem_cons.mp hc with h1 | h2
      · rw [h1]; exact hd
      · exact hacc c h2
    simp only [Nat.toDigitsCore]
    by_cases hdiv : n / 10 = 0
    · rw [if_pos hdiv]
      exact hcons
    · rw [if_neg hdiv]
      exact ih (n / 10) _ hcons

/-- Helper: every character of `Nat.repr` is a digit. -/
theorem nat_repr_isDigit (n : Nat) : ∀ c ∈ (Nat.repr n).data, c.isDigit = true := by
  have h : (Nat.repr n).data = Nat.toDigitsCore 10 (n + 1) n [] := rfl
  rw [h]
  exact toDigitsCore_isDigit (n + 1) n [] (by simp)

/-- Helper: splitting at a dot followed only by digit characters is unique. -/
theorem append_dot_digits_inj :
    ∀ (u v d1 d2 : List Char), (∀ c ∈ d1, c.isDigit = true) →
      (∀ c ∈ d2, c.isDigit = true) →
      u ++ '.' :: d1 = v ++ '.' :: d2 → u = v ∧ d1 = d2 := by
  intro u
  induction u with
  | nil =>
    intro v d1 d2 h1 h2 heq
    cases v with
    | nil => simpa using heq
    | cons c v =>
      exfalso
      simp only [List.nil_append, List.cons_append] at heq
      injection heq with hc htl
      have hdot := h1 '.' (htl ▸ List.mem_append_right v (List.mem_cons_self _ _))
      simp at hdot
  | cons c u ih =>
    intro v d1 d2 h1 h2 heq
    cases v with
    | nil =>
      exfalso
      simp only [List.cons_append, List.nil_append] at heq
      injection heq with hc htl
      have hdot := h2 '.' (htl ▸ List.mem_append_right u (List.mem_cons_self _ _))
      simp at hdot
    | cons c2 v =>
      simp only [List.cons_append] at heq
      injection heq with hc htl
      obtain ⟨hu, hd⟩ := ih v d1 d2 h1 h2 htl
      exact ⟨by rw [hc, hu], hd⟩

/-- Helper: a string is determined by its character list. -/
theorem string_data_injective (s t : String) (h : s.data = t.data) : s = t :=
  congrArg String.mk h

/-- Helper: the character list of a chunk id. -/
theorem chunk_id_data (file_name : String) (i : Nat) :
    (chunk_id file_name i).data =
      'i' :: 'd' :: ((file_name.dropRight 4).data ++ '.' :: (Nat.repr i).data) := by
  have h1 : ("id" : String).data = ['i', 'd'] := rfl
  have h2 : ("." : String).data = ['.'] := rfl
  simp [chunk_id, String.data_append, h1, h2]

/-- Helper: two chunk ids coincide exactly when the truncated file names and
the chunk indices coincide. -/
theorem chunk_id_collision_iff (fn fn2 : String) (i i2 : Nat) :
    chunk_id fn i = chunk_id fn2 i2 ↔
      (fn.dropRight 4 = fn2.dropRight 4 ∧ i = i2) := by
  constructor
  · intro h
    have hdata := congrArg String.data h
    rw [chunk_id_data, chunk_id_data] at hdata
    injection hdata with h1 hdata
    injection hdata with h2 hdata
    obtain ⟨hstem, hrepr⟩ :=
      append_dot_digits_inj _ _ _ _ (nat_repr_isDigit i) (nat_repr_isDigit i2) hdata
    exact ⟨string_data_injective _ _ hstem,
      nat_repr_injective i i2 (string_data_injective _ _ hrepr)⟩
  · rintro ⟨h1, h2⟩
    rw [chunk_id, chunk_id, h1, h2]

/-- Claim C8, counterexample: the distinct (filename, chunk-index) pairs
(doc.txt, 1) and (doc.pdf, 1), ingested into the same collection, derive the
same record id `iddoc.1`, because the id keeps only `file_name[:-4]`, which
erases the extension. -/
theorem chunk_ids_collide_across_extensions :
    ((("doc.txt") : String), (1 : Nat)) ≠ ((("doc.pdf") : String), (1 : Nat)) ∧
    (make_collection [] [(("doc.txt"), [("a")]), (("doc.pdf"), [("b")])] true).map
        StoredRecord.id = [("iddoc.1"), ("iddoc.1")] :=
  ⟨by decide, by decide⟩

/-- Claim C8 (amended): id derivation is deterministic, and ids collide
exactly when the filenames agree after dropping their last 4 characters (the
extension) and the chunk indices agree; in particular two distinct chunk
indices of the same file always get distinct ids, while filenames differing
only in extension (doc.txt vs doc.pdf) share ids. -/
theorem chunk_id_deterministic_unique (fn fn2 : String) (i i2 : Nat) :
    (chunk_id fn i = chunk_id fn2 i2 ↔ (fn.dropRight 4 = fn2.dropRight 4 ∧ i = i2)) ∧
    (i ≠ i2 → chunk_id fn i ≠ chunk_id fn i2) :=
  ⟨chunk_id_collision_iff fn fn2 i i2,
   fun hne hc => hne ((chunk_id_collision_iff fn fn i i2).1 hc).2⟩

/-- Claim C8, witness: doc.txt and doc.pdf share the id of chunk 1, while
chunks 1 and 2 of doc.txt get distinct ids. -/
theorem chunk_id_deterministic_unique_witness :
    chunk_id ("doc.txt") 1 = chunk_id ("doc.pdf") 1 ∧
    chunk_id ("doc.txt") 1 ≠ chunk_id ("doc.txt") 2 :=
  ⟨((chunk_id_deterministic_unique ("doc.txt") ("doc.pdf") 1 1).1).2 (by decide),
   (chunk_id_deterministic_unique ("doc.txt") ("doc.txt") 1 2).2 (by decide)⟩
